import Mathlib

/-!
Shallow embedding of the price-record extraction engine of the
`my_custom_device` Home Assistant integration
(`custom_components/my_custom_device/sensor.py`), together with theorems
settling the specification claims about it.

Modelling conventions:
* JSON values are the inductive `JVal`; numbers (both epoch timestamps and
  prices) are rationals; instants live on a rational timeline.
* The host utilities `dt_util.parse_datetime` (ISO-string parsing) and
  `float(str)` conversion are external collaborators, passed in as
  parameters `pd : String → Option ℚ` and `sf : String → Option ℚ`.
  A string whose parse would fail, or would yield a naive datetime whose
  later comparison with the aware `now` raises (caught by the per-record
  handler, net effect: skip), is modelled by `none`.
* A Python exception escaping a region is `PyResult.exn`; `try`/`except`
  blocks in the code are translated by mapping `exn` to the handler's
  behaviour exactly where the source catches it.
-/

namespace Essent

/-- A JSON value as produced by `response.json()`. -/
inductive JVal where
  | jNull
  | jBool (b : Bool)
  | jNum (q : ℚ)
  | jStr (s : String)
  | jArr (xs : List JVal)
  | jObj (kvs : List (String × JVal))

mutual

/-- Structural equality of JSON values, modelling Python `==` on parsed JSON. -/
def JVal.beq : JVal → JVal → Bool
  | .jNull, .jNull => true
  | .jBool a, .jBool b => a == b
  | .jNum a, .jNum b => a == b
  | .jStr a, .jStr b => a == b
  | .jArr a, .jArr b => beqListJ a b
  | .jObj a, .jObj b => beqKvsJ a b
  | _, _ => false

/-- Elementwise equality of JSON arrays. -/
def beqListJ : List JVal → List JVal → Bool
  | [], [] => true
  | a :: as, b :: bs => JVal.beq a b && beqListJ as bs
  | _, _ => false

/-- Entrywise equality of JSON objects (as ordered association lists). -/
def beqKvsJ : List (String × JVal) → List (String × JVal) → Bool
  | [], [] => true
  | (k, v) :: as, (l, w) :: bs => k == l && JVal.beq v w && beqKvsJ as bs
  | _, _ => false

end

/-- Outcome of a region of Python code: a value, or an exception escaping it. -/
inductive PyResult (α : Type) where
  | ok (a : α)
  | exn
  deriving DecidableEq

/-- Python truthiness of a JSON value (`if not prices_list`, `if next_timestamp`). -/
def JVal.truthy : JVal → Bool
  | .jNull => false
  | .jBool b => b
  | .jNum q => decide (q ≠ 0)
  | .jStr s => !s.isEmpty
  | .jArr xs => !xs.isEmpty
  | .jObj kvs => !kvs.isEmpty

/-- Membership of a JSON value in a JSON array, using Python equality. -/
def elemJ (v : JVal) : List JVal → Bool
  | [] => false
  | x :: xs => JVal.beq x v || elemJ v xs

/-- `list.index(item)`: index of the first element equal to `item`
(the source calls it only on members, so the missing case is irrelevant). -/
def indexJ (v : JVal) : List JVal → ℕ
  | [] => 0
  | x :: xs => if JVal.beq x v then 0 else indexJ v xs + 1

/-- Whether the first list is a prefix of the second. -/
def charPrefix : List Char → List Char → Bool
  | [], _ => true
  | _ :: _, [] => false
  | a :: as, b :: bs => a == b && charPrefix as bs

/-- Whether the first list occurs contiguously inside the second. -/
def charInfix (key : List Char) : List Char → Bool
  | [] => key.isEmpty
  | b :: bs => charPrefix key (b :: bs) || charInfix key bs

/-- Python `key in data`: key membership for a dict, element membership for a
list, substring test for a string, and a `TypeError` otherwise. -/
def keyInR (data : JVal) (key : String) : PyResult Bool :=
  match data with
  | .jObj kvs => .ok (kvs.lookup key).isSome
  | .jArr xs => .ok (elemJ (.jStr key) xs)
  | .jStr s => .ok (charInfix key.toList s.toList)
  | _ => .exn

/-- Python `data[key]` with a string key: dict lookup (the source only
subscripts keys it has just tested for membership), `TypeError`/`KeyError`
otherwise. -/
def subscriptGet (data : JVal) (key : String) : PyResult JVal :=
  match data with
  | .jObj kvs =>
    match kvs.lookup key with
    | some v => .ok v
    | none => .exn
  | _ => .exn

/-- Python `item.get(key)`: `None`-defaulting lookup on a dict,
`AttributeError` on anything else. -/
def pyGetAttr (data : JVal) (key : String) : PyResult (Option JVal) :=
  match data with
  | .jObj kvs => .ok (kvs.lookup key)
  | _ => .exn

/-- `sensor.py` line 122: candidate keys for the price-list container. -/
def possible_list_keys : List String :=
  ["prices", "data", "tariffs", "rates", "items", "results"]

/-- `sensor.py` line 158: candidate field names for the start instant. -/
def timestamp_keys : List String :=
  ["timestamp", "date", "datetime", "time", "validFrom", "from", "start"]

/-- `sensor.py` line 159: candidate field names for the price value. -/
def price_keys : List String :=
  ["price", "rate", "tariff", "value", "amount"]

/-- `sensor.py` lines 126-130: scan the candidate container keys in order and
take the value of the first key for which `key in data` holds; `data[key]`
on a non-dict raises. -/
def probeListKeys : List String → JVal → PyResult (Option JVal)
  | [], _ => .ok none
  | k :: ks, data =>
    match keyInR data k with
    | .exn => .exn
    | .ok true =>
      match subscriptGet data k with
      | .ok v => .ok (some v)
      | .exn => .exn
    | .ok false => probeListKeys ks data

/-- `sensor.py` lines 122-143 (the Schema Normalizer of the spec): find the
interval list inside the payload. Returns `ok none` when the function would
log an error and return `None`, and `exn` when an exception escapes. -/
def locate_intervals (data : JVal) : PyResult (Option (List JVal)) :=
  match probeListKeys possible_list_keys data with
  | .exn => .exn
  | .ok found =>
    let pl : Option JVal :=
      match data with
      | .jArr _ => some data
      | _ => found
    match pl with
    | none => .ok none
    | some v =>
      if v.truthy then
        match v with
        | .jArr xs => if xs.length = 0 then .ok none else .ok (some xs)
        | _ => .ok none
      else .ok none

/-- `sensor.py` lines 174-184 and 193-196: turn a timestamp field value into
an instant. A string goes through the host's ISO parser `pd`; ints and
floats (Python also accepts `bool` there) go through `fromtimestamp`,
modelled as the identity on the rational timeline; anything else yields no
instant (the source either `continue`s or raises inside the per-record
`try`, both ending in a skip). -/
def parseTs (pd : String → Option ℚ) : JVal → Option ℚ
  | .jStr s => pd s
  | .jNum q => some q
  | .jBool b => some (if b then 1 else 0)
  | _ => none

/-- Python `float(x)` on a JSON value, with `sf` the string-to-float
conversion; `none` models the `ValueError`/`TypeError` the caller catches. -/
def pyFloat (sf : String → Option ℚ) : JVal → Option ℚ
  | .jNum q => some q
  | .jBool b => some (if b then 1 else 0)
  | .jStr s => sf s
  | _ => none

/-- `sensor.py` lines 223-231: the probing loop of `_extract_price_value`.
A present key whose subscript or conversion fails is skipped (the `try`
around the conversion catches `ValueError` and `TypeError`); `key in item`
itself can still raise on a non-iterable item. -/
def extractLoop (sf : String → Option ℚ) (item : JVal) : List String → PyResult (Option ℚ)
  | [] => .ok none
  | k :: ks =>
    match keyInR item k with
    | .exn => .exn
    | .ok false => extractLoop sf item ks
    | .ok true =>
      match subscriptGet item k with
      | .exn => extractLoop sf item ks
      | .ok v =>
        match pyFloat sf v with
        | some q => .ok (some q)
        | none => extractLoop sf item ks

/-- `sensor.py` lines 213-233: `_extract_price_value`. -/
def extract_price_value (sf : String → Option ℚ) (item : JVal) : PyResult (Option ℚ) :=
  extractLoop sf item price_keys

/-- `sensor.py` lines 163-169: probe the timestamp candidate keys in order
on one record, returning the first present field's value and name. -/
def findTsKey (item : JVal) : List String → PyResult (Option (JVal × String))
  | [] => .ok none
  | k :: ks =>
    match keyInR item k with
    | .exn => .exn
    | .ok true =>
      match subscriptGet item k with
      | .ok v => .ok (some (v, k))
      | .exn => .exn
    | .ok false => findTsKey item ks

/-- Outcome of the body of the `for price_item in prices_list` loop for one
record: return a value from the function, fall through to the next record,
or let an exception escape the loop. -/
inductive ScanStep where
  | ret (v : Option ℚ)
  | cont
  | raised

/-- `sensor.py` lines 161-208: the per-record body of the scan. The probe of
lines 163-169 runs outside the `try`, so its exceptions escape; everything
from line 175 on is inside the `try`, whose handler `continue`s. -/
def scanItem (pd sf : String → Option ℚ) (xs : List JVal) (now : ℚ) (item : JVal) : ScanStep :=
  match findTsKey item timestamp_keys with
  | .exn => .raised
  | .ok none => .cont
  | .ok (some (tsv, tsKey)) =>
    match parseTs pd tsv with
    | none => .cont
    | some price_time =>
      let idx := indexJ item xs
      if idx < xs.length - 1 then
        match pyGetAttr (xs.getD (idx + 1) .jNull) tsKey with
        | .exn => .cont
        | .ok none => .cont
        | .ok (some ntv) =>
          if ntv.truthy then
            match parseTs pd ntv with
            | none => .cont
            | some next_time =>
              if price_time ≤ now ∧ now < next_time then
                match extract_price_value sf item with
                | .ok v => .ret v
                | .exn => .cont
              else .cont
          else .cont
      else
        if price_time ≤ now then
          match extract_price_value sf item with
          | .ok v => .ret v
          | .exn => .cont
        else .cont

/-- The scan loop over all records (`sensor.py` lines 161-211); reaching the
end returns `None`. -/
def scanLoop (pd sf : String → Option ℚ) (xs : List JVal) (now : ℚ) :
    List JVal → PyResult (Option ℚ)
  | [] => .ok none
  | item :: rest =>
    match scanItem pd sf xs now item with
    | .ret v => .ok v
    | .cont => scanLoop pd sf xs now rest
    | .raised => .exn

/-- `sensor.py` lines 109-211: `_parse_current_price`. Returns the value of
`self._prices_list` after the call together with the call's outcome: the
debug access `prices_list[0].keys()` at line 146 raises before the list is
stored when the first record is not a dict, and the store at line 150
happens before the scan, so a scan exception leaves the new list behind. -/
def parse_current_price (pd sf : String → Option ℚ) (now : ℚ)
    (old_prices : List JVal) (data : JVal) : List JVal × PyResult (Option ℚ) :=
  match locate_intervals data with
  | .exn => (old_prices, .exn)
  | .ok none => (old_prices, .ok none)
  | .ok (some xs) =>
    match xs with
    | [] => (old_prices, .exn)
    | first :: _ =>
      match first with
      | .jObj _ => (xs, scanLoop pd sf xs now xs)
      | _ => (old_prices, .exn)

/-- The mutable fields of `EssentDynamicPriceSensor` that `async_update`
touches: the native value, the stored price list, and the extra state
attributes (`prices`, `last_update`, `raw_data`), `none` for the initial
empty dict. -/
structure SensorState where
  native_value : Option ℚ
  prices_list : List JVal
  attrs : Option (List JVal × ℚ × JVal)

/-- What the fetch step of one refresh cycle produced: a caught exception
(timeout, connection error), a non-200 status, a 200 response whose body is
not JSON (`response.json()` raises `ContentTypeError`, a `ClientError`), or
a 200 response with a parsed JSON body. -/
inductive FetchResult where
  | exnCaught
  | badStatus
  | jsonError
  | ok (data : JVal)

/-- `sensor.py` lines 66-107: `async_update` as a state transformer. The
whole body sits inside `try`/`except aiohttp.ClientError`/`except
Exception`, so no exception escapes; a non-200 status returns early at line
81 before any mutation. The debug argument `list(data.keys())` at line 85
is evaluated eagerly, so a non-dict payload raises `AttributeError` there —
before `_parse_current_price` ever runs — and the handler at line 106
leaves every field unchanged. -/
def async_update (pd sf : String → Option ℚ) (now : ℚ) (st : SensorState)
    (fr : FetchResult) : SensorState :=
  match fr with
  | .exnCaught => st
  | .badStatus => st
  | .jsonError => st
  | .ok data =>
    match data with
    | .jObj _ =>
      match parse_current_price pd sf now st.prices_list data with
      | (pl, .exn) => { st with prices_list := pl }
      | (pl, .ok cur) =>
        { native_value :=
            match cur with
            | some p => some p
            | none => st.native_value
          prices_list := pl
          attrs := some (pl, now, data) }
    | _ => st

/-- The start instant a record contributes under the scan's probing rule:
the first present timestamp field, parsed. `none` when the record has no
parseable start (or the probe itself would raise). -/
def recStart (pd : String → Option ℚ) (item : JVal) : Option ℚ :=
  match findTsKey item timestamp_keys with
  | .ok (some (v, _)) => parseTs pd v
  | _ => none

/-- Order on optional instants: vacuously true when either is absent. -/
def leOpt : Option ℚ → Option ℚ → Bool
  | some a, some b => decide (a ≤ b)
  | _, _ => true

/-- Whether consecutive entries are in ascending order. -/
def pairwiseLe : List (Option ℚ) → Bool
  | a :: b :: rest => leOpt a b && pairwiseLe (b :: rest)
  | _ => true

/-- Whether a record sequence is sorted ascending by start instant. -/
def sortedByStart (pd : String → Option ℚ) (xs : List JVal) : Bool :=
  pairwiseLe (xs.map (recStart pd))

/-- Modelled from the spec: the normalized `PriceInterval` record of §3
(start and end instants, canonical-name-to-amount mapping). No such record
type exists under `src/`; the source keeps raw dicts. `endTime` renders the
spec's `end`. -/
structure PriceInterval where
  start : ℚ
  endTime : ℚ
  fields : List (String × ℚ)

/-- Modelled from the spec: the values of the requested canonical field over
the intervals whose start falls on `today` (§4.4), with `dateOf` the host's
calendar-date function. No Daily Aggregator exists under `src/`. -/
def todayValues (dateOf : ℚ → ℤ) (intervals : List PriceInterval)
    (today : ℤ) (field : String) : List ℚ :=
  (intervals.filter fun i => decide (dateOf i.start = today)).filterMap
    fun i => i.fields.lookup field

/-- Modelled from the spec: `aggregate_today` of §4.4 — absent when the
today-filtered set carries no value for the field, else the min and max of
the present values. No Daily Aggregator exists under `src/`. -/
def aggregate_today (dateOf : ℚ → ℤ) (intervals : List PriceInterval)
    (today : ℤ) (field : String) : Option (ℚ × ℚ) :=
  match todayValues dateOf intervals today field with
  | [] => none
  | v :: vs => some (vs.foldl min v, vs.foldl max v)

/-- A left fold of `min` lands on one of the folded values. -/
theorem foldl_min_mem (vs : List ℚ) : ∀ v : ℚ, vs.foldl min v ∈ v :: vs := by
  induction vs with
  | nil => intro v; simp
  | cons a vs ih =>
    intro v
    rw [List.foldl_cons]
    rcases List.mem_cons.mp (ih (min v a)) with h1 | h2
    · rw [h1]
      rcases min_choice v a with hm | hm <;> rw [hm] <;> simp
    · simp [h2]

/-- A left fold of `max` lands on one of the folded values. -/
theorem foldl_max_mem (vs : List ℚ) : ∀ v : ℚ, vs.foldl max v ∈ v :: vs := by
  induction vs with
  | nil => intro v; simp
  | cons a vs ih =>
    intro v
    rw [List.foldl_cons]
    rcases List.mem_cons.mp (ih (max v a)) with h1 | h2
    · rw [h1]
      rcases max_choice v a with hm | hm <;> rw [hm] <;> simp
    · simp [h2]

/-- The seed of a left fold of `max` bounds the fold from below. -/
theorem foldl_max_base (vs : List ℚ) : ∀ v : ℚ, v ≤ vs.foldl max v := by
  induction vs with
  | nil => intro v; simp
  | cons a vs ih =>
    intro v
    rw [List.foldl_cons]
    exact le_trans (le_max_left v a) (ih (max v a))

/-- A left fold of `max` bounds every folded value from above. -/
theorem le_foldl_max (vs : List ℚ) : ∀ v x : ℚ, x ∈ v :: vs → x ≤ vs.foldl max v := by
  induction vs with
  | nil =>
    intro v x hx
    rw [List.mem_singleton] at hx
    simp [hx]
  | cons a vs ih =>
    intro v x hx
    rw [List.foldl_cons]
    rcases List.mem_cons.mp hx with h1 | h2
    · subst h1
      exact le_trans (le_max_left x a) (foldl_max_base vs (max x a))
    · rcases List.mem_cons.mp h2 with h3 | h4
      · subst h3
        exact le_trans (le_max_right v x) (foldl_max_base vs (max v x))
      · exact ih (max v a) x (List.mem_cons_of_mem _ h4)

/-- `locate_intervals` on an object, once the probe outcome is known: the
array test and emptiness test of `sensor.py` lines 137-143 remain. -/
theorem locate_intervals_obj_found (kvs : List (String × JVal)) (v : JVal)
    (hprobe : probeListKeys possible_list_keys (.jObj kvs) = .ok (some v)) :
    locate_intervals (.jObj kvs) =
      (if v.truthy then
        match v with
        | JVal.jArr xs => if xs.length = 0 then PyResult.ok none else PyResult.ok (some xs)
        | _ => PyResult.ok none
      else PyResult.ok none) := by
  unfold locate_intervals
  rw [hprobe]

/-- `locate_intervals` on an array whose probe found no key: the array
itself is the candidate list, subject to the same two tests. -/
theorem locate_intervals_arr_nofind (xs : List JVal)
    (hprobe : probeListKeys possible_list_keys (.jArr xs) = .ok none) :
    locate_intervals (.jArr xs) =
      (if (JVal.jArr xs).truthy then
        (if xs.length = 0 then PyResult.ok none else PyResult.ok (some xs))
      else PyResult.ok none) := by
  unfold locate_intervals
  rw [hprobe]

/-- On an array containing none of the probed keys as string elements, the
container-key probe finds nothing. -/
theorem probeListKeys_arr_none (ks : List String) (xs : List JVal)
    (h : ∀ k ∈ ks, elemJ (.jStr k) xs = false) :
    probeListKeys ks (.jArr xs) = .ok none := by
  induction ks with
  | nil => rfl
  | cons k ks ih =>
    have hk := h k (List.mem_cons_self k ks)
    simp only [probeListKeys, keyInR, hk]
    exact ih fun k2 hk2 => h k2 (List.mem_cons_of_mem _ hk2)

/-- Claim C1, code_bug: the spec requires `resolve_current` to be absent
once `now` is at or past the last interval's end, derived as `start + 1
hour` when no end is supplied, and says the final record is never current
merely because its start has passed. The last-record branch of the code
(`sensor.py` lines 201-204) checks only `price_time <= now`, with no upper
bound: at the failing input — a single record starting at instant 0 with
price 1/4, probed at `now = 7200`, an hour past the derived end 3600 — the
code still reports that record's price as current. -/
theorem c1_last_record_unbounded :
    (parse_current_price (fun _ => none) (fun _ => none) 7200 []
      (.jObj [("prices", .jArr [.jObj [("timestamp", .jNum 0), ("price", .jNum (1/4))]])])).2 =
      .ok (some (1/4)) ∧ (0 : ℚ) + 3600 ≤ 7200 :=
  ⟨rfl, by norm_num⟩

/-- Claim C2 is false as stated: on a successful fetch with no interval
covering `now`, `async_update` (`sensor.py` lines 91-95) keeps the
previously held native value instead of reporting absent. Here the previous
value 5 survives a cycle whose only record starts in the future, even
though the cycle is otherwise processed (its attributes are refreshed). -/
theorem c2_counterexample :
    (async_update (fun _ => none) (fun _ => none) 50
        { native_value := some 5, prices_list := [], attrs := none }
        (.ok (.jObj [("prices",
          .jArr [.jObj [("timestamp", .jNum 100), ("price", .jNum 7)]])]))).native_value =
      some 5 ∧
    (async_update (fun _ => none) (fun _ => none) 50
        { native_value := some 5, prices_list := [], attrs := none }
        (.ok (.jObj [("prices",
          .jArr [.jObj [("timestamp", .jNum 100), ("price", .jNum 7)]])]))).attrs ≠
      none :=
  ⟨rfl, fun hcontra => by
    have h2 : (some ([.jObj [("timestamp", .jNum 100), ("price", .jNum 7)]], (50 : ℚ),
        JVal.jObj [("prices", .jArr [.jObj [("timestamp", .jNum 100), ("price", .jNum 7)]])]) :
        Option (List JVal × ℚ × JVal)) = none := hcontra
    simp at h2⟩

/-- Claim C2 as amended: a fetch cycle that succeeds with a JSON object
payload (a non-dict payload raises at the `sensor.py` line 85 debug access
and mutates nothing) but finds no current interval is not treated as a
failure — the attributes are refreshed from the new data — while the
reported current value retains its previously held value rather than
becoming absent. -/
theorem c2_no_current_not_failure (pd sf : String → Option ℚ) (now : ℚ)
    (st : SensorState) (kvs : List (String × JVal))
    (h : (parse_current_price pd sf now st.prices_list (.jObj kvs)).2 = .ok none) :
    async_update pd sf now st (.ok (.jObj kvs)) =
      { native_value := st.native_value
        prices_list := (parse_current_price pd sf now st.prices_list (.jObj kvs)).1
        attrs := some ((parse_current_price pd sf now st.prices_list (.jObj kvs)).1, now,
          .jObj kvs) } := by
  have hp : parse_current_price pd sf now st.prices_list (.jObj kvs) =
      ((parse_current_price pd sf now st.prices_list (.jObj kvs)).1, .ok none) :=
    Prod.ext rfl h
  have hbody : async_update pd sf now st (.ok (.jObj kvs)) =
      (match parse_current_price pd sf now st.prices_list (.jObj kvs) with
        | (pl, .exn) => { st with prices_list := pl }
        | (pl, .ok cur) =>
          { native_value :=
              match cur with
              | some p => some p
              | none => st.native_value
            prices_list := pl
            attrs := some (pl, now, .jObj kvs) }) := rfl
  rw [hbody, hp]

/-- Witness for the amended C2 at the empty payload. -/
theorem c2_no_current_not_failure_witness :
    async_update (fun _ => none) (fun _ => none) 0
      { native_value := some 3, prices_list := [], attrs := none } (.ok (.jObj [])) =
      { native_value := some 3, prices_list := [], attrs := some ([], 0, .jObj []) } :=
  c2_no_current_not_failure (fun _ => none) (fun _ => none) 0
    { native_value := some 3, prices_list := [], attrs := none } [] rfl

/-- Claim C3 is false as stated: the code probes the start-instant field in
the order `timestamp, date, datetime, time, validFrom, from, start`
(`sensor.py` line 158), so for a record carrying both `from` and
`timestamp` the value under `timestamp` wins, not the one under `from`.
End to end: the record below says `from = 100` but `timestamp = 0`, and at
`now = 50` the code treats it as already current and returns its price,
which the claimed `from`-first order would not. -/
theorem c3_counterexample :
    findTsKey (.jObj [("from", .jNum 100), ("timestamp", .jNum 0), ("price", .jNum 9)])
      timestamp_keys = .ok (some (.jNum 0, "timestamp")) ∧
    (parse_current_price (fun _ => none) (fun _ => none) 50 []
      (.jObj [("prices", .jArr
        [.jObj [("from", .jNum 100), ("timestamp", .jNum 0), ("price", .jNum 9)]])])).2 =
      .ok (some 9) :=
  ⟨rfl, rfl⟩

/-- Claim C3 as amended: the start-instant field is probed in the fixed
order `timestamp, date, datetime, time, validFrom, from, start`, first
present field winning; in particular any record containing `timestamp`
uses that field, regardless of a `from` field. -/
theorem c3_timestamp_key_precedence (kvs : List (String × JVal)) (v : JVal)
    (h : kvs.lookup "timestamp" = some v) :
    findTsKey (.jObj kvs) timestamp_keys = .ok (some (v, "timestamp")) := by
  simp [findTsKey, timestamp_keys, keyInR, subscriptGet, h]

/-- Witness for the amended C3 on a record with both `from` and `timestamp`. -/
theorem c3_timestamp_key_precedence_witness :
    findTsKey (.jObj [("from", .jNum 100), ("timestamp", .jNum 7)]) timestamp_keys =
      .ok (some (.jNum 7, "timestamp")) :=
  c3_timestamp_key_precedence [("from", .jNum 100), ("timestamp", .jNum 7)] (.jNum 7) rfl

/-- Claim C4 is false as stated: the code probes the price aliases in the
order `price, rate, tariff, value, amount` (`sensor.py` line 159), so for a
record carrying both `value` and `rate` the number under `rate` is
reported, not the one under `value`. -/
theorem c4_counterexample :
    extract_price_value (fun _ => none) (.jObj [("value", .jNum 1), ("rate", .jNum 2)]) =
      .ok (some 2) ∧
    extract_price_value (fun _ => none) (.jObj [("value", .jNum 1), ("rate", .jNum 2)]) ≠
      .ok (some 1) :=
  ⟨rfl, by decide⟩

/-- Claim C4 as amended: the price is extracted by probing the aliases in
the fixed order `price, rate, tariff, value, amount`, converting the first
present (and convertible) alias; in particular a record with no `price`
field but a numeric `rate` field reports the `rate` number, regardless of a
`value` field. -/
theorem c4_rate_before_value (sf : String → Option ℚ) (kvs : List (String × JVal)) (r : ℚ)
    (hp : kvs.lookup "price" = none)
    (hr : kvs.lookup "rate" = some (.jNum r)) :
    extract_price_value sf (.jObj kvs) = .ok (some r) := by
  simp [extract_price_value, extractLoop, price_keys, keyInR, subscriptGet, hp, hr, pyFloat]

/-- Witness for the amended C4 on a record with both `value` and `rate`. -/
theorem c4_rate_before_value_witness :
    extract_price_value (fun _ => none) (.jObj [("value", .jNum 3), ("rate", .jNum 4)]) =
      .ok (some 4) :=
  c4_rate_before_value (fun _ => none) [("value", .jNum 3), ("rate", .jNum 4)] 4 rfl rfl

/-- Claim C5 is false as stated: the container probe (`sensor.py` lines
126-143) takes the first present candidate key unconditionally and never
moves on to a later key when that value is not an array — it just gives up.
At a payload whose `prices` key holds the number 5 while `data` holds an
array, the code returns no list at all instead of the `data` array. -/
theorem c5_counterexample :
    locate_intervals (.jObj [("prices", .jNum 5),
      ("data", .jArr [.jObj [("price", .jNum 1)]])]) = .ok none ∧
    locate_intervals (.jObj [("prices", .jNum 5),
      ("data", .jArr [.jObj [("price", .jNum 1)]])]) ≠
      .ok (some [.jObj [("price", .jNum 1)]]) :=
  ⟨rfl, fun hcontra => by
    have h2 : (PyResult.ok none : PyResult (Option (List JVal))) =
        .ok (some [.jObj [("price", .jNum 1)]]) := hcontra
    simp at h2⟩

/-- Claim C5 as amended: the candidate container keys are probed in the
order `prices, data, tariffs, rates, items, results`, but the first
*present* key wins outright: when its value is not an array the probe
yields absent, and later candidate keys are never consulted. -/
theorem c5_first_present_key_wins (kvs : List (String × JVal)) (v : JVal)
    (h : kvs.lookup "prices" = some v)
    (hna : ∀ xs, v ≠ .jArr xs) :
    locate_intervals (.jObj kvs) = .ok none := by
  have hprobe : probeListKeys possible_list_keys (.jObj kvs) = .ok (some v) := by
    simp [probeListKeys, possible_list_keys, keyInR, subscriptGet, h]
  rw [locate_intervals_obj_found kvs v hprobe]
  cases v with
  | jArr xs => exact absurd rfl (hna xs)
  | jNull => split <;> rfl
  | jBool b => split <;> rfl
  | jNum q => split <;> rfl
  | jStr s => split <;> rfl
  | jObj o => split <;> rfl

/-- Witness for the amended C5: a non-array `prices` value hides the
`data` array. -/
theorem c5_first_present_key_wins_witness :
    locate_intervals (.jObj [("prices", .jNum 5), ("data", .jArr [.jObj []])]) = .ok none :=
  c5_first_present_key_wins [("prices", .jNum 5), ("data", .jArr [.jObj []])] (.jNum 5) rfl
    (fun _ h => nomatch h)

/-- Claim C6 is false as stated: when the payload is an array, Python `key
in data` is element membership, so an array containing the string
`"prices"` satisfies the probe of `sensor.py` line 127 and the subscript
`data["prices"]` at line 128 raises `TypeError` instead of passing the
array through. -/
theorem c6_counterexample :
    locate_intervals (.jArr [.jStr "prices"]) = .exn ∧
    locate_intervals (.jArr [.jStr "prices"]) ≠ .ok (some [.jStr "prices"]) :=
  ⟨rfl, fun hcontra => by
    have h2 : (PyResult.exn : PyResult (Option (List JVal))) =
        .ok (some [.jStr "prices"]) := hcontra
    simp at h2⟩

/-- Claim C6 as amended: a non-empty array payload none of whose elements
is a string equal to a candidate container key is returned unchanged; an
array containing such a string makes the probe raise instead. -/
theorem c6_array_pass_through (xs : List JVal)
    (hne : xs ≠ [])
    (hkeys : ∀ k ∈ possible_list_keys, elemJ (.jStr k) xs = false) :
    locate_intervals (.jArr xs) = .ok (some xs) := by
  have hprobe := probeListKeys_arr_none possible_list_keys xs hkeys
  rw [locate_intervals_arr_nofind xs hprobe]
  cases xs with
  | nil => exact absurd rfl hne
  | cons a as => simp [JVal.truthy]

/-- Witness for the amended C6 at a one-record array payload. -/
theorem c6_array_pass_through_witness :
    locate_intervals (.jArr [.jObj [("price", .jNum 1)]]) =
      .ok (some [.jObj [("price", .jNum 1)]]) :=
  c6_array_pass_through [.jObj [("price", .jNum 1)]] (List.cons_ne_nil _ _) (by decide)

/-- Claim C7 is false as stated: the code never sorts — the located list is
stored and scanned in arrival order (`sensor.py` lines 150, 161). A payload
whose two records arrive with starts 3600 then 0 is kept in exactly that
descending order. -/
theorem c7_counterexample :
    (parse_current_price (fun _ => none) (fun _ => none) 10 []
      (.jObj [("prices", .jArr
        [.jObj [("timestamp", .jNum 3600), ("price", .jNum 2)],
         .jObj [("timestamp", .jNum 0), ("price", .jNum 1)]])])).1 =
      [.jObj [("timestamp", .jNum 3600), ("price", .jNum 2)],
       .jObj [("timestamp", .jNum 0), ("price", .jNum 1)]] ∧
    sortedByStart (fun _ => none)
      [.jObj [("timestamp", .jNum 3600), ("price", .jNum 2)],
       .jObj [("timestamp", .jNum 0), ("price", .jNum 1)]] = false :=
  ⟨rfl, rfl⟩

/-- Claim C7 as amended: the record sequence the code exposes and scans is
the located container array in its original input order; no sorting pass
exists, so out-of-order input stays out of order. -/
theorem c7_parse_preserves_input_order (pd sf : String → Option ℚ) (now : ℚ)
    (old : List JVal) (kvs : List (String × JVal)) (ks : List (String × JVal))
    (rest : List JVal)
    (h : kvs.lookup "prices" = some (.jArr (.jObj ks :: rest))) :
    (parse_current_price pd sf now old (.jObj kvs)).1 = .jObj ks :: rest := by
  have hprobe : probeListKeys possible_list_keys (.jObj kvs) =
      .ok (some (.jArr (.jObj ks :: rest))) := by
    simp [probeListKeys, possible_list_keys, keyInR, subscriptGet, h]
  have hloc : locate_intervals (.jObj kvs) = .ok (some (.jObj ks :: rest)) := by
    rw [locate_intervals_obj_found kvs _ hprobe]
    simp [JVal.truthy]
  unfold parse_current_price
  rw [hloc]

/-- Witness for the amended C7 on a two-record descending payload. -/
theorem c7_parse_preserves_input_order_witness :
    (parse_current_price (fun _ => none) (fun _ => none) 0 []
      (.jObj [("prices", .jArr
        [.jObj [("timestamp", .jNum 9)], .jObj [("timestamp", .jNum 1)]])])).1 =
      .jObj [("timestamp", .jNum 9)] :: [.jObj [("timestamp", .jNum 1)]] :=
  c7_parse_preserves_input_order (fun _ => none) (fun _ => none) 0 []
    [("prices", .jArr [.jObj [("timestamp", .jNum 9)], .jObj [("timestamp", .jNum 1)]])]
    [("timestamp", .jNum 9)] [.jObj [("timestamp", .jNum 1)]] rfl

/-- Claim C8 (spec-modelled, no aggregator exists under `src/`):
`aggregate_today` is absent exactly when the today-filtered set carries no
value for the requested field, and otherwise returns a min and max with
`min <= max`, both drawn from the present values of that field. -/
theorem c8_aggregate_today_spec (dateOf : ℚ → ℤ) (intervals : List PriceInterval)
    (today : ℤ) (field : String) :
    (aggregate_today dateOf intervals today field = none ↔
      todayValues dateOf intervals today field = []) ∧
    (∀ mn mx, aggregate_today dateOf intervals today field = some (mn, mx) →
      mn ≤ mx ∧ mn ∈ todayValues dateOf intervals today field ∧
        mx ∈ todayValues dateOf intervals today field) := by
  rcases hv : todayValues dateOf intervals today field with _ | ⟨v, vs⟩
  · refine ⟨by simp [aggregate_today, hv], ?_⟩
    intro mn mx hsome
    simp [aggregate_today, hv] at hsome
  · refine ⟨by simp [aggregate_today, hv], ?_⟩
    intro mn mx hsome
    simp only [aggregate_today, hv] at hsome
    rw [Option.some_inj, Prod.mk.injEq] at hsome
    obtain ⟨hmn, hmx⟩ := hsome
    rw [← hmn, ← hmx]
    exact ⟨le_foldl_max vs v _ (foldl_min_mem vs v), foldl_min_mem vs v, foldl_max_mem vs v⟩

/-- Witness for C8 on a two-interval day. -/
theorem c8_aggregate_today_spec_witness :
    (2 : ℚ) ≤ 3 ∧
    (2 : ℚ) ∈ todayValues (fun _ => 0)
      [⟨0, 1, [("price", 2)]⟩, ⟨5, 6, [("price", 3)]⟩] 0 "price" ∧
    (3 : ℚ) ∈ todayValues (fun _ => 0)
      [⟨0, 1, [("price", 2)]⟩, ⟨5, 6, [("price", 3)]⟩] 0 "price" :=
  (c8_aggregate_today_spec (fun _ => 0)
    [⟨0, 1, [("price", 2)]⟩, ⟨5, 6, [("price", 3)]⟩] 0 "price").2 2 3 (by decide)

/-- Claim C9, confirmed: the whole body of `async_update` runs inside a
`try` whose handlers catch `aiohttp.ClientError` and `Exception`, so a
timeout, connection error, non-200 status, or non-JSON body never escapes
to the caller (the embedding is total for exactly that reason), and each of
those failure paths occurs before any mutation, leaving the previously held
native value, price list, and attributes unchanged. -/
theorem c9_transport_failure_preserves_state (pd sf : String → Option ℚ) (now : ℚ)
    (st : SensorState) :
    async_update pd sf now st .exnCaught = st ∧
    async_update pd sf now st .badStatus = st ∧
    async_update pd sf now st .jsonError = st :=
  ⟨rfl, rfl, rfl⟩

/-- Claim C10, confirmed: a non-final record with a parseable start can be
selected as current only when its immediate successor (the record after the
first structurally equal occurrence, per `list.index`) yields a truthy,
parseable value under the very timestamp key that matched for this record;
when the successor lacks that key or holds a falsy value the record is
skipped outright — no one-hour fallback end — even when `now` lies inside
the record's hour. -/
theorem c10_successor_gates_selection (pd sf : String → Option ℚ) (xs : List JVal)
    (now : ℚ) (item tsv : JVal) (tsKey : String) (t : ℚ)
    (hfind : findTsKey item timestamp_keys = .ok (some (tsv, tsKey)))
    (hparse : parseTs pd tsv = some t)
    (hidx : indexJ item xs < xs.length - 1)
    (hnow1 : t ≤ now) (hnow2 : now < t + 3600) :
    (∀ r, pyGetAttr (xs.getD (indexJ item xs + 1) .jNull) tsKey = .ok r →
      (∀ v, r = some v → v.truthy = false) →
      scanItem pd sf xs now item = .cont) ∧
    (∀ p, scanItem pd sf xs now item = .ret p →
      ∃ nv nt, pyGetAttr (xs.getD (indexJ item xs + 1) .jNull) tsKey = .ok (some nv) ∧
        nv.truthy = true ∧ parseTs pd nv = some nt ∧ t ≤ now ∧ now < nt) := by
  have hred : scanItem pd sf xs now item =
      (match pyGetAttr (xs.getD (indexJ item xs + 1) .jNull) tsKey with
       | .exn => .cont
       | .ok none => .cont
       | .ok (some ntv) =>
         if ntv.truthy then
           match parseTs pd ntv with
           | none => .cont
           | some next_time =>
             if t ≤ now ∧ now < next_time then
               match extract_price_value sf item with
               | .ok v => .ret v
               | .exn => .cont
             else .cont
         else .cont) := by
    simp only [scanItem, hfind, hparse]
    rw [if_pos hidx]
  constructor
  · intro r hget hfalsy
    rw [hred, hget]
    cases r with
    | none => rfl
    | some v =>
      have hv := hfalsy v rfl
      simp [hv]
  · intro p hret
    rw [hred] at hret
    cases hg : pyGetAttr (xs.getD (indexJ item xs + 1) .jNull) tsKey with
    | exn =>
      rw [hg] at hret
      exact ScanStep.noConfusion (show ScanStep.cont = ScanStep.ret p from hret)
    | ok r =>
      rw [hg] at hret
      cases r with
      | none =>
        exact ScanStep.noConfusion (show ScanStep.cont = ScanStep.ret p from hret)
      | some nv =>
        have hret2 : (if nv.truthy then
            match parseTs pd nv with
            | none => ScanStep.cont
            | some next_time =>
              if t ≤ now ∧ now < next_time then
                match extract_price_value sf item with
                | PyResult.ok v => ScanStep.ret v
                | PyResult.exn => ScanStep.cont
              else ScanStep.cont
          else ScanStep.cont) = ScanStep.ret p := hret
        by_cases htr : nv.truthy = true
        · rw [if_pos htr] at hret2
          cases hpn : parseTs pd nv with
          | none =>
            rw [hpn] at hret2
            exact ScanStep.noConfusion (show ScanStep.cont = ScanStep.ret p from hret2)
          | some nt =>
            rw [hpn] at hret2
            have hret3 : (if t ≤ now ∧ now < nt then
                match extract_price_value sf item with
                | PyResult.ok v => ScanStep.ret v
                | PyResult.exn => ScanStep.cont
              else ScanStep.cont) = ScanStep.ret p := hret2
            by_cases hcmp : t ≤ now ∧ now < nt
            · exact ⟨nv, nt, rfl, htr, hpn, hcmp.1, hcmp.2⟩
            · rw [if_neg hcmp] at hret3
              exact ScanStep.noConfusion (show ScanStep.cont = ScanStep.ret p from hret3)
        · rw [if_neg htr] at hret2
          exact ScanStep.noConfusion (show ScanStep.cont = ScanStep.ret p from hret2)

/-- Witness for C10: a record starting at 0 with `now` inside its hour is
skipped because its successor has no `timestamp` field. -/
theorem c10_successor_gates_selection_witness :
    scanItem (fun _ => none) (fun _ => none)
      [.jObj [("timestamp", .jNum 0), ("price", .jNum 1)], .jObj [("price", .jNum 2)]]
      1800 (.jObj [("timestamp", .jNum 0), ("price", .jNum 1)]) = .cont :=
  (c10_successor_gates_selection (fun _ => none) (fun _ => none)
      [.jObj [("timestamp", .jNum 0), ("price", .jNum 1)], .jObj [("price", .jNum 2)]]
      1800 (.jObj [("timestamp", .jNum 0), ("price", .jNum 1)]) (.jNum 0) "timestamp" 0
      rfl rfl (by decide) (by norm_num) (by norm_num)).1
    none rfl (fun v hv => nomatch hv)

end Essent
